import Mathlib

/-!
Verification of the geometry and batch/composition logic of
`src/python/batch_resize.py`.

Pixel coordinates are Python `int`s, modelled as `Int`.  Python floor
division `//` is `Int.fdiv`.  The Python float values that appear
(`ratio`, the intermediate products `bh*ratio` and quotients `bw/ratio`)
are modelled as exact rationals `ℚ`; Python `int(...)` applied to such a
value truncates toward zero and is modelled by `pyInt`.  Image pixel
contents, the YOLO detector internals and actual file I/O are outside the
embedded fragment: the detector is an abstract `ImgFile → Option Box`
parameter, and a saved file is recorded as an `Artifact` value (directory,
file name, encoder quality).
-/

namespace BatchResize

/-- A pixel box `(left, top, right, bottom)`, the 4-tuples the Python code
passes around. -/
structure Box where
  left : Int
  top : Int
  right : Int
  bottom : Int
  deriving DecidableEq

/-- Python `int(...)` applied to an exactly represented rational:
truncation toward zero. -/
def pyInt (q : ℚ) : Int := if 0 ≤ q then ⌊q⌋ else ⌈q⌉

/-- Python `max(a, b)` on integers. -/
def pyMax (a b : Int) : Int := if a < b then b else a

/-- Python `min(a, b)` on integers. -/
def pyMin (a b : Int) : Int := if b < a then b else a

/-- `center_square` (lines 70-73): `side = min(w, h) - 2*pad`,
`l = (w-side)//2`, `t = (h-side)//2`, returning `(l, t, l+side, t+side)`. -/
def center_square (w h pad : Int) : Box :=
  let side := pyMin w h - 2 * pad
  let l := (w - side).fdiv 2
  let t := (h - side).fdiv 2
  ⟨l, t, l + side, t + side⟩

/-- The expansion stage of `expand_aspect` (lines 77-81), before the pad is
applied and before clamping: widen when the current aspect ratio `cr` is
below the target, otherwise heighten. -/
def expandOnly (l t r b : Int) (ratio : ℚ) : Box :=
  let bw := r - l
  let bh := b - t
  let cr : ℚ := (bw : ℚ) / (bh : ℚ)
  if cr < ratio then
    let nw := pyInt ((bh : ℚ) * ratio)
    let d := (nw - bw).fdiv 2
    ⟨l - d, t, r + d, b⟩
  else
    let nh := pyInt ((bw : ℚ) / ratio)
    let d := (nh - bh).fdiv 2
    ⟨l, t - d, r, b + d⟩

/-- The padding stage of `expand_aspect` (line 82): `l -= pad; t -= pad;
r += pad; b += pad`. -/
def padBox (pad : Int) (bx : Box) : Box :=
  ⟨bx.left - pad, bx.top - pad, bx.right + pad, bx.bottom + pad⟩

/-- The clamping stage of `expand_aspect` (line 83):
`max(l,0), max(t,0), min(r,w), min(b,h)`. -/
def clampBox (w h : Int) (bx : Box) : Box :=
  ⟨pyMax bx.left 0, pyMax bx.top 0, pyMin bx.right w, pyMin bx.bottom h⟩

/-- `expand_aspect` (lines 76-83): expansion, then uniform pad, then clamp
to `[0,w] × [0,h]`. -/
def expand_aspect (l t r b : Int) (ratio : ℚ) (w h pad : Int) : Box :=
  clampBox w h (padBox pad (expandOnly l t r b ratio))

/-! Composition-grid arithmetic of `run_compose` (lines 160-173). -/

/-- Row height computed inside the row loop (line 162):
`rh = (ch - gutter*(len(rows)-1)) // len(rows)`. -/
def rowH (ch gutter : Int) (nrows : Nat) : Int :=
  (ch - gutter * ((nrows : Int) - 1)).fdiv (nrows : Int)

/-- Per-row cell width (line 163):
`cw_cell = (cw - gutter*(rcount-1)) // rcount`. -/
def cellW (cw gutter rcount : Int) : Int :=
  (cw - gutter * (rcount - 1)).fdiv rcount

/-- The row heights as the loop recomputes them, one per row; the formula
only depends on `ch`, `gutter` and the total row count, never on the row. -/
def rowHeights (rows : List Int) (ch gutter : Int) : List Int :=
  rows.map (fun _ => rowH ch gutter rows.length)

/-- The paste positions generated by the loop of lines 160-173: for each
row of `rcount` columns, `x = col * (cw_cell + gutter)` at the running
`y`, which then advances by `rh + gutter`. -/
def composeGo (cw gutter rh : Int) : List Int → Int → List (Int × Int)
  | [], _ => []
  | rcount :: rest, y =>
      (List.range rcount.toNat).map
          (fun col => ((col : Int) * (cellW cw gutter rcount + gutter), y))
        ++ composeGo cw gutter rh rest (y + rh + gutter)

/-- All paste positions of one composition, in the order the images are
consumed (left-to-right inside a row, rows top-to-bottom). -/
def composePositions (rows : List Int) (cw ch gutter : Int) : List (Int × Int) :=
  composeGo cw gutter (rowH ch gutter rows.length) rows 0

/-- The images of a composition paired with their paste positions:
`imgs[idx]` is consumed at the `idx`-th generated position. -/
def composePlacements (imgs : List String) (rows : List Int)
    (cw ch gutter : Int) : List (String × (Int × Int)) :=
  imgs.zip (composePositions rows cw ch gutter)

/-! File-name handling: `pathlib.Path.suffix` / `.stem`, the dispatcher's
extension filter (line 189) and the compose-mode glob (line 135). -/

/-- `pathlib.Path.suffix`: the substring from the last dot on, empty when
the last dot is the first character or there is none. -/
def pySuffix (s : String) : String :=
  let ds := ((s.toList.enum).filter (fun p => p.2 = '.')).map (fun p => p.1)
  match ds.getLast? with
  | none => ""
  | some i => if 0 < i ∧ i + 1 < s.toList.length then String.mk (s.toList.drop i) else ""

/-- `pathlib.Path.stem`: the file name with `pySuffix` removed. -/
def pyStem (s : String) : String :=
  String.mk (s.toList.take (s.toList.length - (pySuffix s).toList.length))

/-- Python `str.lower()`, character by character (the extensions involved
are ASCII). -/
def pyToLower (s : String) : String := String.mk (s.toList.map Char.toLower)

/-- The dispatcher's image test (line 189):
`item.suffix.lower() in [".jpg", ".jpeg", ".png"]`. -/
def pyIsImage (name : String) : Bool :=
  [".jpg", ".jpeg", ".png"].contains (pyToLower (pySuffix name))

/-- Whether `folder.glob("*.jpg")` selects a file name: a case-sensitive
match of the literal tail `.jpg` (pathlib glob does not fold case). -/
def composeSelects (name : String) : Bool :=
  ".jpg".toList.isSuffixOf name.toList

/-- Lexicographic `≤` on code points, Python's ordering of `str`. -/
def lexLe : List Char → List Char → Bool
  | [], _ => true
  | _ :: _, [] => false
  | c :: cs, d :: ds => if c < d then true else if d < c then false else lexLe cs ds

/-- `sorted(folder.glob("*.jpg"))` (line 135): the folder's files that the
glob selects, in sorted order. -/
def composeImgs (files : List String) : List String :=
  (files.filter fun f => composeSelects f).insertionSort
    (fun a b => lexLe a.toList b.toList = true)

/-! The configuration data model (section 6 of the config document: it is
loaded once and read-only) and the recorded outputs.  A written file is
recorded as an `Artifact`; pixel contents (crop, fit, paste) are outside
the embedding. -/

/-- One output profile: `tag`, parsed `"WxH"` size, optional pad. -/
structure Profile where
  tag : String
  sizeW : Int
  sizeH : Int
  padOpt : Option Int
  deriving DecidableEq

/-- `outputs`: profiles, separator (default `"_"` applied at load) and the
optional `default_pad`. -/
structure OutputsCfg where
  profiles : List Profile
  separator : String
  defaultPadOpt : Option Int
  deriving DecidableEq

/-- One orientation's layout configuration: `gutter`, `bg_color` and the
`patterns` table keyed by the stringified image count. -/
structure LayoutCfg where
  gutter : Int
  bgColor : String
  patterns : List (String × List Int)
  deriving DecidableEq

/-- The three orientation classes of `layouts`. -/
structure LayoutsCfg where
  vertical : LayoutCfg
  horizontal : LayoutCfg
  square : LayoutCfg
  deriving DecidableEq

/-- The whole configuration document. -/
structure Cfg where
  outputs : OutputsCfg
  layouts : LayoutsCfg
  deriving DecidableEq

/-- The CLI arguments the embedded fragment reads. -/
structure Args where
  pad : Int
  minArea : Int
  maxAreaOpt : Option Int
  deriving DecidableEq

/-- A direct-child image file of the input root: its name, whether
`Image.open` succeeds on it, and its pixel size. -/
structure ImgFile where
  name : String
  openable : Bool
  width : Int
  height : Int
  deriving DecidableEq

/-- A direct-child subfolder: its name and the file names inside. -/
structure Folder where
  name : String
  files : List String
  deriving DecidableEq

/-- A file the program wrote: output subdirectory (the profile tag), file
name, and the encoder `quality` passed to `save`. -/
structure Artifact where
  dir : String
  fname : String
  quality : Int
  deriving DecidableEq

/-- Python dict lookup `lc.patterns[key]`, as an `Option`. -/
def lookupPattern (lc : LayoutCfg) (key : String) : Option (List Int) :=
  (lc.patterns.find? (fun p => p.1 == key)).map (fun p => p.2)

/-- The per-profile artifacts `run_batch` saves for one successfully opened
image (lines 102-122): detector bbox or centered-square fallback, the
min/max-area filter (`args.max_area and area > args.max_area`, where a
`None` or `0` bound disables the upper check), per-profile pad, aspect
expansion, and the `resize_and_save` call of line 122 — whose last argument
is `args.pad`, passed into the `quality` parameter.  The debug overlay of
lines 111-113 and the pixel work of `crop`/`fit` produce no modelled
artifact. -/
def batchArtifactsFor (args : Args) (cfg : Cfg) (detect : ImgFile → Option Box)
    (src : ImgFile) : List Artifact :=
  let w := src.width
  let h := src.height
  let bbox0 := match detect src with
    | some bb => bb
    | none => center_square w h args.pad
  let area := (bbox0.right - bbox0.left) * (bbox0.bottom - bbox0.top)
  let overMax : Bool := match args.maxAreaOpt with
    | none => false
    | some m => if m = 0 then false else decide (m < area)
  let bbox := if area < args.minArea ∨ overMax = true then center_square w h args.pad else bbox0
  let stem := pyStem src.name
  let ext := pySuffix src.name
  let defaultPad := cfg.outputs.defaultPadOpt.getD args.pad
  cfg.outputs.profiles.map fun prof =>
    let pad := prof.padOpt.getD defaultPad
    let ratio : ℚ := (prof.sizeW : ℚ) / (prof.sizeH : ℚ)
    let _crop := expand_aspect bbox.left bbox.top bbox.right bbox.bottom ratio w h pad
    { dir := prof.tag
      fname := stem ++ cfg.outputs.separator ++ prof.tag
                ++ toString prof.sizeW ++ "x" ++ toString prof.sizeH ++ ext
      quality := args.pad }

/-- The `run_batch` loop (lines 101-122): files in order; a file that
cannot be opened raises inside the loop, which ends the whole run while
keeping the artifacts already written. -/
def runBatchAux (args : Args) (cfg : Cfg) (detect : ImgFile → Option Box) :
    List ImgFile → List Artifact → List Artifact × Option String
  | [], acc => (acc, none)
  | src :: rest, acc =>
      if src.openable then
        runBatchAux args cfg detect rest (acc ++ batchArtifactsFor args cfg detect src)
      else
        (acc, some ("cannot identify image file " ++ src.name))

/-- `run_batch` (lines 93-122): artifacts written before any raise, plus
the raised error, if one occurred. -/
def run_batch (args : Args) (cfg : Cfg) (detect : ImgFile → Option Box)
    (files : List ImgFile) : List Artifact × Option String :=
  runBatchAux args cfg detect files []

/-- Orientation selection of lines 145-149: `ch > cw` → vertical,
`cw > ch` → horizontal, else square. -/
def layoutFor (ls : LayoutsCfg) (cw ch : Int) : LayoutCfg :=
  if ch > cw then ls.vertical else if cw > ch then ls.horizontal else ls.square

/-- One profile iteration of `run_compose` (lines 140-177): the pattern
lookup `layouts[orient]["patterns"][str(n)]` raises `KeyError` when the
key is absent; `imgs[idx]` raises `IndexError` when the pattern consumes
more images than the folder holds; otherwise the composite is saved with
`quality=95` (line 177). -/
def composeProfile (cfg : Cfg) (folder : Folder) (imgs : List String)
    (prof : Profile) : Except String Artifact :=
  let cw := prof.sizeW
  let ch := prof.sizeH
  let lc := layoutFor cfg.layouts cw ch
  match lookupPattern lc (toString imgs.length) with
  | none => .error ("KeyError: " ++ toString imgs.length)
  | some rows =>
      if imgs.length < (rows.map (fun rc => rc.toNat)).sum then
        .error "IndexError: list index out of range"
      else
        .ok { dir := prof.tag
              fname := folder.name ++ "_" ++ prof.tag ++ cfg.outputs.separator
                        ++ toString cw ++ "x" ++ toString ch ++ ".jpg"
              quality := 95 }

/-- The profile loop of `run_compose`: composites already saved stay on
disk; a raise stops the loop. -/
def composeProfiles (cfg : Cfg) (folder : Folder) (imgs : List String) :
    List Profile → List Artifact → List Artifact × Option String
  | [], acc => (acc, none)
  | prof :: rest, acc =>
      match composeProfile cfg folder imgs prof with
      | .ok a => composeProfiles cfg folder imgs rest (acc ++ [a])
      | .error e => (acc, some e)

/-- `run_compose` (lines 125-177): collect the sorted `*.jpg` children,
return silently when there are none, else compose one file per profile. -/
def run_compose (cfg : Cfg) (folder : Folder) : List Artifact × Option String :=
  let imgs := composeImgs folder.files
  if imgs.length = 0 then ([], none)
  else composeProfiles cfg folder imgs cfg.outputs.profiles []

/-- A direct child of the input root as `process` sees it. -/
inductive PathItem where
  | file (f : ImgFile)
  | dir (d : Folder)
  deriving DecidableEq

/-- The dispatcher's file classification (lines 186-190). -/
def singlesOf (items : List PathItem) : List ImgFile :=
  items.filterMap fun it => match it with
    | .file f => if pyIsImage f.name then some f else none
    | .dir _ => none

/-- The dispatcher's folder classification (lines 186-188). -/
def foldersOf (items : List PathItem) : List Folder :=
  items.filterMap fun it => match it with
    | .file _ => none
    | .dir d => some d

/-- The folder loop of lines 193-194: sequential, an uncaught raise stops
the remaining folders. -/
def processFolders (cfg : Cfg) : List Folder → List Artifact → List Artifact × Option String
  | [], acc => (acc, none)
  | d :: rest, acc =>
      match run_compose cfg d with
      | (arts, none) => processFolders cfg rest (acc ++ arts)
      | (arts, some e) => (acc ++ arts, some e)

/-- `process` (lines 180-194): classify the root's children, run the
single-image batch when any single exists, then compose each subfolder;
any uncaught raise ends the run with the outputs produced so far. -/
def process (args : Args) (cfg : Cfg) (detect : ImgFile → Option Box)
    (items : List PathItem) : List Artifact × Option String :=
  let singles := singlesOf items
  match (if singles.isEmpty then ([], none) else run_batch args cfg detect singles) with
  | (arts, some e) => (arts, some e)
  | (arts, none) => processFolders cfg (foldersOf items) arts

/-! Concrete configurations and inputs used in the scenario theorems. -/

/-- CLI defaults: `--pad 40`, `--min-area 0`, `--max-area` unset. -/
def exampleArgs : Args := ⟨40, 0, none⟩

/-- A run without the detector capability (`_YOLO = False`): every query
yields nothing and the centered-square fallback is used. -/
def exampleDetect : ImgFile → Option Box := fun _ => none

/-- One 100x100 profile, for single-image batch scenarios. -/
def exampleBatchCfg : Cfg :=
  { outputs := { profiles := [⟨"thumb", 100, 100, none⟩], separator := "_",
                 defaultPadOpt := none }
    layouts := { vertical := ⟨10, "#000000", []⟩, horizontal := ⟨10, "#000000", []⟩,
                 square := ⟨10, "#000000", []⟩ } }

/-- One square 800x800 profile whose layouts define only the pattern for
four images: `rows = [2,2]`, gutter 10. -/
def exampleComposeCfg : Cfg :=
  { outputs := { profiles := [⟨"tag800", 800, 800, none⟩], separator := "_",
                 defaultPadOpt := none }
    layouts := { vertical := ⟨10, "#000000", [("4", [2, 2])]⟩
                 horizontal := ⟨10, "#000000", [("4", [2, 2])]⟩
                 square := ⟨10, "#000000", [("4", [2, 2])]⟩ } }

/-- Like `exampleComposeCfg` but the key "3" maps to a pattern that
consumes four images, exercising the index-exhaustion path. -/
def exampleShortfallCfg : Cfg :=
  { outputs := { profiles := [⟨"tag800", 800, 800, none⟩], separator := "_",
                 defaultPadOpt := none }
    layouts := { vertical := ⟨10, "#000000", [("3", [2, 2])]⟩
                 horizontal := ⟨10, "#000000", [("3", [2, 2])]⟩
                 square := ⟨10, "#000000", [("3", [2, 2])]⟩ } }

/-- A subfolder with three jpg images. -/
def folderThree : Folder := ⟨"three", ["a1.jpg", "a2.jpg", "a3.jpg"]⟩

/-- A subfolder with four jpg images. -/
def folderFour : Folder := ⟨"four", ["b1.jpg", "b2.jpg", "b3.jpg", "b4.jpg"]⟩

/-! Helper lemmas about Python floor division and truncation. -/

theorem pyInt_of_nonneg {q : ℚ} (h : 0 ≤ q) : pyInt q = ⌊q⌋ := if_pos h

theorem fdiv_two_le (a : Int) : 2 * (a.fdiv 2) ≤ a ∧ a ≤ 2 * (a.fdiv 2) + 1 := by
  have h := Int.fdiv_add_fmod a 2
  have h1 : 0 ≤ a.fmod 2 := Int.fmod_nonneg' a (by norm_num)
  have h2 : a.fmod 2 < 2 := Int.fmod_lt_of_pos a (by norm_num)
  omega

theorem fdiv_slack (a b : Int) (hb : 0 < b) :
    0 ≤ a - b * (a.fdiv b) ∧ a - b * (a.fdiv b) ≤ b - 1 := by
  have h := Int.fdiv_add_fmod a b
  have h1 : 0 ≤ a.fmod b := Int.fmod_nonneg' a hb
  have h2 : a.fmod b < b := Int.fmod_lt_of_pos a hb
  omega

theorem pyInt_intCast (z : Int) : pyInt (z : ℚ) = z := by
  unfold pyInt
  split
  · exact Int.floor_intCast z
  · exact Int.ceil_intCast z

/-- In the widening branch the target width `bh * ratio` is at least the
current width. -/
theorem widen_target_ge (l t r b : Int) (ratio : ℚ) (hlr : l < r) (htb : t < b)
    (hcr : ((r - l : Int) : ℚ) / ((b - t : Int) : ℚ) < ratio) :
    ((r - l : Int) : ℚ) ≤ ((b - t : Int) : ℚ) * ratio := by
  have hbh : (0 : ℚ) < ((b - t : Int) : ℚ) := by
    exact_mod_cast (by omega : (0 : Int) < b - t)
  rw [div_lt_iff₀ hbh] at hcr
  nlinarith [hcr]

/-- In the heightening branch the target height `bw / ratio` is at least
the current height. -/
theorem heighten_target_ge (l t r b : Int) (ratio : ℚ) (htb : t < b) (hρ : 0 < ratio)
    (hcr : ¬ ((r - l : Int) : ℚ) / ((b - t : Int) : ℚ) < ratio) :
    ((b - t : Int) : ℚ) ≤ ((r - l : Int) : ℚ) / ratio := by
  have hbh : (0 : ℚ) < ((b - t : Int) : ℚ) := by
    exact_mod_cast (by omega : (0 : Int) < b - t)
  push_neg at hcr
  rw [le_div_iff₀ hbh] at hcr
  rw [le_div_iff₀ hρ]
  nlinarith [hcr]

/-- The shared arithmetic of both `expand_aspect` branches: for a positive
extent `ext` and a target `tgt ≥ ext`, the symmetric growth
`ext + 2*((int(tgt) - ext) // 2)` never exceeds `int(tgt)`, falls short of
`tgt` by strictly less than two, and a second pass adds nothing. -/
theorem adjustExtent (ext : Int) (tgt : ℚ)
    (hpos : 0 < ext) (hle : (ext : ℚ) ≤ tgt) :
    0 ≤ (pyInt tgt - ext).fdiv 2 ∧
    ext + 2 * ((pyInt tgt - ext).fdiv 2) ≤ pyInt tgt ∧
    pyInt tgt - 1 ≤ ext + 2 * ((pyInt tgt - ext).fdiv 2) ∧
    (0 : ℚ) ≤ tgt - ((ext + 2 * ((pyInt tgt - ext).fdiv 2) : Int) : ℚ) ∧
    tgt - ((ext + 2 * ((pyInt tgt - ext).fdiv 2) : Int) : ℚ) < 2 ∧
    (pyInt tgt - (ext + 2 * ((pyInt tgt - ext).fdiv 2))).fdiv 2 = 0 := by
  have htgt0 : (0 : ℚ) ≤ tgt := le_trans (by exact_mod_cast hpos.le) hle
  have hfl : pyInt tgt = ⌊tgt⌋ := pyInt_of_nonneg htgt0
  have h1 : ext ≤ pyInt tgt := by rw [hfl]; exact Int.le_floor.mpr hle
  have h2 : (pyInt tgt : ℚ) ≤ tgt := by rw [hfl]; exact_mod_cast Int.floor_le tgt
  have h3 : tgt < (pyInt tgt : ℚ) + 1 := by rw [hfl]; exact_mod_cast Int.lt_floor_add_one tgt
  have h4 := fdiv_two_le (pyInt tgt - ext)
  have h5 : 0 ≤ (pyInt tgt - ext).fdiv 2 := Int.fdiv_nonneg (by omega) (by norm_num)
  refine ⟨h5, by omega, by omega, ?_, ?_, ?_⟩
  · have hc : ((ext + 2 * ((pyInt tgt - ext).fdiv 2) : Int) : ℚ) ≤ (pyInt tgt : ℚ) := by
      exact_mod_cast (by omega : ext + 2 * ((pyInt tgt - ext).fdiv 2) ≤ pyInt tgt)
    linarith
  · have hc : (pyInt tgt : ℚ) - 1 ≤ ((ext + 2 * ((pyInt tgt - ext).fdiv 2) : Int) : ℚ) := by
      exact_mod_cast (by omega : pyInt tgt - 1 ≤ ext + 2 * ((pyInt tgt - ext).fdiv 2))
    linarith
  · have h6 := fdiv_two_le (pyInt tgt - (ext + 2 * ((pyInt tgt - ext).fdiv 2)))
    have h7 : 0 ≤ (pyInt tgt - (ext + 2 * ((pyInt tgt - ext).fdiv 2))).fdiv 2 :=
      Int.fdiv_nonneg (by omega) (by norm_num)
    omega

/-- The widening branch written out. -/
theorem expandOnly_widen_eq (l t r b : Int) (ratio : ℚ)
    (hcr : ((r - l : Int) : ℚ) / ((b - t : Int) : ℚ) < ratio) :
    expandOnly l t r b ratio =
      ⟨l - (pyInt (((b - t : Int) : ℚ) * ratio) - (r - l)).fdiv 2, t,
       r + (pyInt (((b - t : Int) : ℚ) * ratio) - (r - l)).fdiv 2, b⟩ := by
  simp only [expandOnly]
  rw [if_pos hcr]

/-- The heightening branch written out. -/
theorem expandOnly_heighten_eq (l t r b : Int) (ratio : ℚ)
    (hcr : ¬ ((r - l : Int) : ℚ) / ((b - t : Int) : ℚ) < ratio) :
    expandOnly l t r b ratio =
      ⟨l, t - (pyInt (((r - l : Int) : ℚ) / ratio) - (b - t)).fdiv 2, r,
       b + (pyInt (((r - l : Int) : ℚ) / ratio) - (b - t)).fdiv 2⟩ := by
  simp only [expandOnly]
  rw [if_neg hcr]

/-- Widening: the vertical sides are untouched, the box only grows, and
the new width lands within `[bh*ratio - 2, bh*ratio]`. -/
theorem expandOnly_widen (l t r b : Int) (ratio : ℚ)
    (hlr : l < r) (htb : t < b)
    (hcr : ((r - l : Int) : ℚ) / ((b - t : Int) : ℚ) < ratio) :
    (expandOnly l t r b ratio).top = t ∧ (expandOnly l t r b ratio).bottom = b ∧
    (expandOnly l t r b ratio).left ≤ l ∧ r ≤ (expandOnly l t r b ratio).right ∧
    (0 : ℚ) ≤ ((b - t : Int) : ℚ) * ratio -
      (((expandOnly l t r b ratio).right - (expandOnly l t r b ratio).left : Int) : ℚ) ∧
    ((b - t : Int) : ℚ) * ratio -
      (((expandOnly l t r b ratio).right - (expandOnly l t r b ratio).left : Int) : ℚ) < 2 := by
  have hle := widen_target_ge l t r b ratio hlr htb hcr
  have key := adjustExtent (r - l) (((b - t : Int) : ℚ) * ratio) (by omega) hle
  have hd0 : 0 ≤ (pyInt (((b - t : Int) : ℚ) * ratio) - (r - l)).fdiv 2 := key.1
  rw [expandOnly_widen_eq l t r b ratio hcr]
  dsimp only
  have hcast : ((r + (pyInt (((b - t : Int) : ℚ) * ratio) - (r - l)).fdiv 2 -
      (l - (pyInt (((b - t : Int) : ℚ) * ratio) - (r - l)).fdiv 2) : Int) : ℚ) =
      ((r - l + 2 * ((pyInt (((b - t : Int) : ℚ) * ratio) - (r - l)).fdiv 2) : Int) : ℚ) := by
    push_cast
    ring
  refine ⟨rfl, rfl, by omega, by omega, ?_, ?_⟩
  · rw [hcast]
    exact key.2.2.2.1
  · rw [hcast]
    exact key.2.2.2.2.1

/-- Heightening: the horizontal sides are untouched, the box only grows,
and the new height lands within `[bw/ratio - 2, bw/ratio]`. -/
theorem expandOnly_heighten (l t r b : Int) (ratio : ℚ)
    (hlr : l < r) (htb : t < b) (hρ : 0 < ratio)
    (hcr : ¬ ((r - l : Int) : ℚ) / ((b - t : Int) : ℚ) < ratio) :
    (expandOnly l t r b ratio).left = l ∧ (expandOnly l t r b ratio).right = r ∧
    (expandOnly l t r b ratio).top ≤ t ∧ b ≤ (expandOnly l t r b ratio).bottom ∧
    (0 : ℚ) ≤ ((r - l : Int) : ℚ) / ratio -
      (((expandOnly l t r b ratio).bottom - (expandOnly l t r b ratio).top : Int) : ℚ) ∧
    ((r - l : Int) : ℚ) / ratio -
      (((expandOnly l t r b ratio).bottom - (expandOnly l t r b ratio).top : Int) : ℚ) < 2 := by
  have hle := heighten_target_ge l t r b ratio htb hρ hcr
  have key := adjustExtent (b - t) (((r - l : Int) : ℚ) / ratio) (by omega) hle
  have hd0 : 0 ≤ (pyInt (((r - l : Int) : ℚ) / ratio) - (b - t)).fdiv 2 := key.1
  rw [expandOnly_heighten_eq l t r b ratio hcr]
  dsimp only
  have hcast : ((b + (pyInt (((r - l : Int) : ℚ) / ratio) - (b - t)).fdiv 2 -
      (t - (pyInt (((r - l : Int) : ℚ) / ratio) - (b - t)).fdiv 2) : Int) : ℚ) =
      ((b - t + 2 * ((pyInt (((r - l : Int) : ℚ) / ratio) - (b - t)).fdiv 2) : Int) : ℚ) := by
    push_cast
    ring
  refine ⟨rfl, rfl, by omega, by omega, ?_, ?_⟩
  · rw [hcast]
    exact key.2.2.2.1
  · rw [hcast]
    exact key.2.2.2.2.1

/-- Claim C1, amended: before the pad and the clamp, the expansion keeps
the untouched dimension and brings the adjusted extent within strictly
less than TWO pixels below the exact target (`int()` truncation and `//2`
each lose up to one); the one-pixel bound of the claim fails, and after
the pad is added the returned box keeps no ratio guarantee at all. -/
theorem expandOnly_ratio_within_two_pixels (l t r b : Int) (ratio : ℚ)
    (hlr : l < r) (htb : t < b) (hρ : 0 < ratio) :
    (((r - l : Int) : ℚ) / ((b - t : Int) : ℚ) < ratio →
      (expandOnly l t r b ratio).top = t ∧ (expandOnly l t r b ratio).bottom = b ∧
      (0 : ℚ) ≤ ((b - t : Int) : ℚ) * ratio -
        (((expandOnly l t r b ratio).right - (expandOnly l t r b ratio).left : Int) : ℚ) ∧
      ((b - t : Int) : ℚ) * ratio -
        (((expandOnly l t r b ratio).right - (expandOnly l t r b ratio).left : Int) : ℚ) < 2) ∧
    (¬ ((r - l : Int) : ℚ) / ((b - t : Int) : ℚ) < ratio →
      (expandOnly l t r b ratio).left = l ∧ (expandOnly l t r b ratio).right = r ∧
      (0 : ℚ) ≤ ((r - l : Int) : ℚ) / ratio -
        (((expandOnly l t r b ratio).bottom - (expandOnly l t r b ratio).top : Int) : ℚ) ∧
      ((r - l : Int) : ℚ) / ratio -
        (((expandOnly l t r b ratio).bottom - (expandOnly l t r b ratio).top : Int) : ℚ) < 2) := by
  constructor
  · intro hcr
    have hw := expandOnly_widen l t r b ratio hlr htb hcr
    exact ⟨hw.1, hw.2.1, hw.2.2.2.2.1, hw.2.2.2.2.2⟩
  · intro hcr
    have hh := expandOnly_heighten l t r b ratio hlr htb hρ hcr
    exact ⟨hh.1, hh.2.1, hh.2.2.2.2.1, hh.2.2.2.2.2⟩

/-- Claim C1 witness at box (10,0)-(14,10), target ratio 3/4. -/
theorem expandOnly_ratio_within_two_pixels_witness :
    ((((14 : Int) - 10 : Int) : ℚ) / (((10 : Int) - 0 : Int) : ℚ) < 3 / 4 →
      (expandOnly 10 0 14 10 (3 / 4)).top = 0 ∧ (expandOnly 10 0 14 10 (3 / 4)).bottom = 10 ∧
      (0 : ℚ) ≤ (((10 : Int) - 0 : Int) : ℚ) * (3 / 4) -
        (((expandOnly 10 0 14 10 (3 / 4)).right - (expandOnly 10 0 14 10 (3 / 4)).left : Int) : ℚ) ∧
      (((10 : Int) - 0 : Int) : ℚ) * (3 / 4) -
        (((expandOnly 10 0 14 10 (3 / 4)).right - (expandOnly 10 0 14 10 (3 / 4)).left : Int) : ℚ) < 2) ∧
    (¬ (((14 : Int) - 10 : Int) : ℚ) / (((10 : Int) - 0 : Int) : ℚ) < 3 / 4 →
      (expandOnly 10 0 14 10 (3 / 4)).left = 10 ∧ (expandOnly 10 0 14 10 (3 / 4)).right = 14 ∧
      (0 : ℚ) ≤ (((14 : Int) - 10 : Int) : ℚ) / (3 / 4) -
        (((expandOnly 10 0 14 10 (3 / 4)).bottom - (expandOnly 10 0 14 10 (3 / 4)).top : Int) : ℚ) ∧
      (((14 : Int) - 10 : Int) : ℚ) / (3 / 4) -
        (((expandOnly 10 0 14 10 (3 / 4)).bottom - (expandOnly 10 0 14 10 (3 / 4)).top : Int) : ℚ) < 2) :=
  expandOnly_ratio_within_two_pixels 10 0 14 10 (3 / 4) (by norm_num) (by norm_num) (by norm_num)

/-- Claim C1 counterexample.  First input: pad 100 skews the returned box
(210 x 205 against target ratio 2) with no clamping truncation at all.
Second input: even with pad 0 and no truncation, the adjusted width 6
misses the exact target 7.5 by more than one pixel. -/
theorem expand_aspect_one_pixel_tolerance_fails :
    (expand_aspect 200 200 210 205 2 1000 1000 100 = ⟨100, 100, 310, 305⟩ ∧
     padBox 100 (expandOnly 200 200 210 205 2) = ⟨100, 100, 310, 305⟩ ∧
     ¬ (-1 ≤ ((310 : ℚ) - 100) - 2 * ((305 : ℚ) - 100) ∧
         ((310 : ℚ) - 100) - 2 * ((305 : ℚ) - 100) ≤ 1)) ∧
    (expand_aspect 10 0 14 10 (3 / 4) 100 10 0 = ⟨9, 0, 15, 10⟩ ∧
     padBox 0 (expandOnly 10 0 14 10 (3 / 4)) = ⟨9, 0, 15, 10⟩ ∧
     ¬ (-1 ≤ ((15 : ℚ) - 9) - (3 / 4) * ((10 : ℚ) - 0) ∧
         ((15 : ℚ) - 9) - (3 / 4) * ((10 : ℚ) - 0) ≤ 1)) := by
  refine ⟨⟨?_, ?_, by norm_num⟩, ⟨?_, ?_, by norm_num⟩⟩
  · norm_num [expand_aspect, expandOnly, padBox, clampBox, pyInt, pyMax, pyMin] <;> decide
  · norm_num [expandOnly, padBox, pyInt] <;> decide
  · norm_num [expand_aspect, expandOnly, padBox, clampBox, pyInt, pyMax, pyMin] <;> decide
  · norm_num [expandOnly, padBox, pyInt] <;> decide

/-- Claim C2: for a valid input box, nonnegative pad and positive ratio,
`expand_aspect` never shrinks below the input box and its result satisfies
the Box invariant within `[0,w] × [0,h]`. -/
theorem expand_aspect_contains_and_invariant (l t r b : Int) (ratio : ℚ)
    (w h pad : Int)
    (hl : 0 ≤ l) (hlr : l < r) (hrw : r ≤ w)
    (ht : 0 ≤ t) (htb : t < b) (hbh : b ≤ h)
    (hpad : 0 ≤ pad) (hρ : 0 < ratio) :
    (expand_aspect l t r b ratio w h pad).left ≤ l ∧
    (expand_aspect l t r b ratio w h pad).top ≤ t ∧
    r ≤ (expand_aspect l t r b ratio w h pad).right ∧
    b ≤ (expand_aspect l t r b ratio w h pad).bottom ∧
    0 ≤ (expand_aspect l t r b ratio w h pad).left ∧
    0 ≤ (expand_aspect l t r b ratio w h pad).top ∧
    (expand_aspect l t r b ratio w h pad).right ≤ w ∧
    (expand_aspect l t r b ratio w h pad).bottom ≤ h ∧
    (expand_aspect l t r b ratio w h pad).left < (expand_aspect l t r b ratio w h pad).right ∧
    (expand_aspect l t r b ratio w h pad).top < (expand_aspect l t r b ratio w h pad).bottom := by
  have hgrow : (expandOnly l t r b ratio).left ≤ l ∧ (expandOnly l t r b ratio).top ≤ t ∧
      r ≤ (expandOnly l t r b ratio).right ∧ b ≤ (expandOnly l t r b ratio).bottom := by
    by_cases hcr : ((r - l : Int) : ℚ) / ((b - t : Int) : ℚ) < ratio
    · have hw := expandOnly_widen l t r b ratio hlr htb hcr
      exact ⟨hw.2.2.1, le_of_eq hw.1, hw.2.2.2.1, le_of_eq hw.2.1.symm⟩
    · have hh := expandOnly_heighten l t r b ratio hlr htb hρ hcr
      exact ⟨le_of_eq hh.1, hh.2.2.1, le_of_eq hh.2.1.symm, hh.2.2.2.1⟩
  obtain ⟨g1, g2, g3, g4⟩ := hgrow
  simp only [expand_aspect, padBox, clampBox, pyMax, pyMin]
  split_ifs <;> omega

/-- Claim C2 witness at the spec scenario: centered box (140,40)-(860,760)
in a 1000 x 800 image, profile 300x400 (ratio 3/4), pad 40. -/
theorem expand_aspect_contains_and_invariant_witness :
    0 ≤ (140 : Int) ∧ (140 : Int) < 860 ∧ (860 : Int) ≤ 1000 ∧
    0 ≤ (40 : Int) ∧ (40 : Int) < 760 ∧ (760 : Int) ≤ 800 ∧
    0 ≤ (40 : Int) ∧ (0 : ℚ) < 3 / 4 ∧
    ((expand_aspect 140 40 860 760 (3 / 4) 1000 800 40).left ≤ 140 ∧
     (expand_aspect 140 40 860 760 (3 / 4) 1000 800 40).top ≤ 40 ∧
     860 ≤ (expand_aspect 140 40 860 760 (3 / 4) 1000 800 40).right ∧
     760 ≤ (expand_aspect 140 40 860 760 (3 / 4) 1000 800 40).bottom ∧
     0 ≤ (expand_aspect 140 40 860 760 (3 / 4) 1000 800 40).left ∧
     0 ≤ (expand_aspect 140 40 860 760 (3 / 4) 1000 800 40).top ∧
     (expand_aspect 140 40 860 760 (3 / 4) 1000 800 40).right ≤ 1000 ∧
     (expand_aspect 140 40 860 760 (3 / 4) 1000 800 40).bottom ≤ 800 ∧
     (expand_aspect 140 40 860 760 (3 / 4) 1000 800 40).left <
       (expand_aspect 140 40 860 760 (3 / 4) 1000 800 40).right ∧
     (expand_aspect 140 40 860 760 (3 / 4) 1000 800 40).top <
       (expand_aspect 140 40 860 760 (3 / 4) 1000 800 40).bottom) :=
  ⟨by decide, by decide, by decide, by decide, by decide, by decide, by decide, by norm_num,
    expand_aspect_contains_and_invariant 140 40 860 760 (3 / 4) 1000 800 40
      (by decide) (by decide) (by decide) (by decide) (by decide) (by decide)
      (by decide) (by norm_num)⟩

/-- With pad 0 and a box already inside the bounds, the pad and clamp
stages do nothing. -/
theorem clampBox_padZero_id (w h : Int) (B : Box)
    (h1 : 0 ≤ B.left) (h2 : 0 ≤ B.top) (h3 : B.right ≤ w) (h4 : B.bottom ≤ h) :
    clampBox w h (padBox 0 B) = B := by
  cases B with
  | mk bl bt br bb =>
      simp only [clampBox, padBox, pyMax, pyMin] at *
      simp only [Box.mk.injEq]
      split_ifs <;> omega

/-- Tie-break: a box whose aspect ratio equals the target exactly is not
expanded at all. -/
theorem expandOnly_tiebreak (l t r b : Int) (ratio : ℚ)
    (hlr : l < r) (htb : t < b)
    (heq : ((r - l : Int) : ℚ) / ((b - t : Int) : ℚ) = ratio) :
    expandOnly l t r b ratio = ⟨l, t, r, b⟩ := by
  have hbh : (0 : ℚ) < ((b - t : Int) : ℚ) := by
    exact_mod_cast (by omega : (0 : Int) < b - t)
  have hbw : (0 : ℚ) < ((r - l : Int) : ℚ) := by
    exact_mod_cast (by omega : (0 : Int) < r - l)
  have hcr : ¬ ((r - l : Int) : ℚ) / ((b - t : Int) : ℚ) < ratio := by
    rw [heq]
    exact lt_irrefl ratio
  rw [expandOnly_heighten_eq l t r b ratio hcr]
  have harg : ((r - l : Int) : ℚ) / ratio = ((b - t : Int) : ℚ) := by
    have hbw' : ((r : ℚ) - l) ≠ 0 := by
      push_cast at hbw
      exact ne_of_gt hbw
    rw [← heq]
    field_simp
  rw [harg, pyInt_intCast]
  norm_num

/-- Re-running the expansion stage on its own output changes nothing. -/
theorem expandOnly_fixed (l t r b : Int) (ratio : ℚ)
    (hlr : l < r) (htb : t < b) (hρ : 0 < ratio) :
    expandOnly (expandOnly l t r b ratio).left (expandOnly l t r b ratio).top
      (expandOnly l t r b ratio).right (expandOnly l t r b ratio).bottom ratio =
      expandOnly l t r b ratio := by
  by_cases hcr : ((r - l : Int) : ℚ) / ((b - t : Int) : ℚ) < ratio
  · have hle := widen_target_ge l t r b ratio hlr htb hcr
    have key := adjustExtent (r - l) (((b - t : Int) : ℚ) * ratio) (by omega) hle
    have hd0 : 0 ≤ (pyInt (((b - t : Int) : ℚ) * ratio) - (r - l)).fdiv 2 := key.1
    rw [expandOnly_widen_eq l t r b ratio hcr]
    dsimp only
    have hshift : r + (pyInt (((b - t : Int) : ℚ) * ratio) - (r - l)).fdiv 2 -
        (l - (pyInt (((b - t : Int) : ℚ) * ratio) - (r - l)).fdiv 2) =
        r - l + 2 * ((pyInt (((b - t : Int) : ℚ) * ratio) - (r - l)).fdiv 2) := by ring
    by_cases hcr2 : ((r + (pyInt (((b - t : Int) : ℚ) * ratio) - (r - l)).fdiv 2 -
        (l - (pyInt (((b - t : Int) : ℚ) * ratio) - (r - l)).fdiv 2) : Int) : ℚ) /
        ((b - t : Int) : ℚ) < ratio
    · rw [expandOnly_widen_eq _ t _ b ratio hcr2]
      rw [hshift, key.2.2.2.2.2]
      norm_num
    · rw [expandOnly_heighten_eq _ t _ b ratio hcr2]
      have hbh : (0 : ℚ) < ((b - t : Int) : ℚ) := by
        exact_mod_cast (by omega : (0 : Int) < b - t)
      push_neg at hcr2
      rw [le_div_iff₀ hbh] at hcr2
      have hub : ((r + (pyInt (((b - t : Int) : ℚ) * ratio) - (r - l)).fdiv 2 -
          (l - (pyInt (((b - t : Int) : ℚ) * ratio) - (r - l)).fdiv 2) : Int) : ℚ) ≤
          ((b - t : Int) : ℚ) * ratio := by
        rw [hshift]
        have hc : ((r - l + 2 * ((pyInt (((b - t : Int) : ℚ) * ratio) - (r - l)).fdiv 2) : Int) : ℚ) ≤
            ((b - t : Int) : ℚ) * ratio := by linarith [key.2.2.2.1]
        exact hc
      have hexact : ((r + (pyInt (((b - t : Int) : ℚ) * ratio) - (r - l)).fdiv 2 -
          (l - (pyInt (((b - t : Int) : ℚ) * ratio) - (r - l)).fdiv 2) : Int) : ℚ) =
          ((b - t : Int) : ℚ) * ratio := le_antisymm hub (by nlinarith [hcr2])
      rw [hexact]
      rw [mul_div_assoc, div_self (ne_of_gt hρ), mul_one, pyInt_intCast]
      norm_num
  · have hle := heighten_target_ge l t r b ratio htb hρ hcr
    have key := adjustExtent (b - t) (((r - l : Int) : ℚ) / ratio) (by omega) hle
    have hd0 : 0 ≤ (pyInt (((r - l : Int) : ℚ) / ratio) - (b - t)).fdiv 2 := key.1
    rw [expandOnly_heighten_eq l t r b ratio hcr]
    dsimp only
    have hshift : b + (pyInt (((r - l : Int) : ℚ) / ratio) - (b - t)).fdiv 2 -
        (t - (pyInt (((r - l : Int) : ℚ) / ratio) - (b - t)).fdiv 2) =
        b - t + 2 * ((pyInt (((r - l : Int) : ℚ) / ratio) - (b - t)).fdiv 2) := by ring
    have hbh2 : (0 : ℚ) < ((b + (pyInt (((r - l : Int) : ℚ) / ratio) - (b - t)).fdiv 2 -
        (t - (pyInt (((r - l : Int) : ℚ) / ratio) - (b - t)).fdiv 2) : Int) : ℚ) := by
      exact_mod_cast (by omega : (0 : Int) <
        b + (pyInt (((r - l : Int) : ℚ) / ratio) - (b - t)).fdiv 2 -
          (t - (pyInt (((r - l : Int) : ℚ) / ratio) - (b - t)).fdiv 2))
    have hcr2 : ¬ ((r - l : Int) : ℚ) /
        ((b + (pyInt (((r - l : Int) : ℚ) / ratio) - (b - t)).fdiv 2 -
          (t - (pyInt (((r - l : Int) : ℚ) / ratio) - (b - t)).fdiv 2) : Int) : ℚ) < ratio := by
      rw [not_lt, le_div_iff₀ hbh2]
      have hub : ((b + (pyInt (((r - l : Int) : ℚ) / ratio) - (b - t)).fdiv 2 -
          (t - (pyInt (((r - l : Int) : ℚ) / ratio) - (b - t)).fdiv 2) : Int) : ℚ) ≤
          ((r - l : Int) : ℚ) / ratio := by
        rw [hshift]
        have hc : ((b - t + 2 * ((pyInt (((r - l : Int) : ℚ) / ratio) - (b - t)).fdiv 2) : Int) : ℚ) ≤
            ((r - l : Int) : ℚ) / ratio := by linarith [key.2.2.2.1]
        exact hc
      calc ratio * ((b + (pyInt (((r - l : Int) : ℚ) / ratio) - (b - t)).fdiv 2 -
              (t - (pyInt (((r - l : Int) : ℚ) / ratio) - (b - t)).fdiv 2) : Int) : ℚ) ≤
            ratio * (((r - l : Int) : ℚ) / ratio) := by
              exact mul_le_mul_of_nonneg_left hub (le_of_lt hρ)
        _ = ((r - l : Int) : ℚ) := by
              field_simp
    rw [expandOnly_heighten_eq l _ r _ ratio hcr2]
    rw [hshift, key.2.2.2.2.2]
    norm_num

/-- Claim C4, amended: with pad 0, when the expansion stage alone already
lands inside `[0,w] × [0,h]` (no clamping truncation), `expand_aspect` is
a fixed point of itself; and a box whose ratio equals the target exactly
is only padded, never expanded.  (The counterexample shows idempotence
fails once clamping truncates a side.) -/
theorem expand_aspect_idempotent_unclamped (l t r b : Int) (ratio : ℚ) (w h : Int)
    (hlr : l < r) (htb : t < b) (hρ : 0 < ratio)
    (h1 : 0 ≤ (expandOnly l t r b ratio).left)
    (h2 : 0 ≤ (expandOnly l t r b ratio).top)
    (h3 : (expandOnly l t r b ratio).right ≤ w)
    (h4 : (expandOnly l t r b ratio).bottom ≤ h) :
    expand_aspect l t r b ratio w h 0 = expandOnly l t r b ratio ∧
    expand_aspect (expand_aspect l t r b ratio w h 0).left
        (expand_aspect l t r b ratio w h 0).top
        (expand_aspect l t r b ratio w h 0).right
        (expand_aspect l t r b ratio w h 0).bottom ratio w h 0 =
      expand_aspect l t r b ratio w h 0 ∧
    (((r - l : Int) : ℚ) / ((b - t : Int) : ℚ) = ratio →
      expandOnly l t r b ratio = ⟨l, t, r, b⟩) := by
  have hfirst : expand_aspect l t r b ratio w h 0 = expandOnly l t r b ratio := by
    simp only [expand_aspect]
    exact clampBox_padZero_id w h (expandOnly l t r b ratio) h1 h2 h3 h4
  refine ⟨hfirst, ?_, expandOnly_tiebreak l t r b ratio hlr htb⟩
  rw [hfirst]
  simp only [expand_aspect]
  rw [expandOnly_fixed l t r b ratio hlr htb hρ]
  exact clampBox_padZero_id w h (expandOnly l t r b ratio) h1 h2 h3 h4

/-- Claim C4 witness at box (10,10)-(12,11) with ratio 2 in a 100 x 100
image: the ratio already matches, so both applications return the box. -/
theorem expand_aspect_idempotent_unclamped_witness :
    (10 : Int) < 12 ∧ (10 : Int) < 11 ∧ (0 : ℚ) < 2 ∧
    (0 ≤ (expandOnly 10 10 12 11 2).left ∧ 0 ≤ (expandOnly 10 10 12 11 2).top ∧
     (expandOnly 10 10 12 11 2).right ≤ 100 ∧ (expandOnly 10 10 12 11 2).bottom ≤ 100) ∧
    (expand_aspect 10 10 12 11 2 100 100 0 = expandOnly 10 10 12 11 2 ∧
     expand_aspect (expand_aspect 10 10 12 11 2 100 100 0).left
        (expand_aspect 10 10 12 11 2 100 100 0).top
        (expand_aspect 10 10 12 11 2 100 100 0).right
        (expand_aspect 10 10 12 11 2 100 100 0).bottom 2 100 100 0 =
       expand_aspect 10 10 12 11 2 100 100 0 ∧
     ((((12 : Int) - 10 : Int) : ℚ) / (((11 : Int) - 10 : Int) : ℚ) = 2 →
       expandOnly 10 10 12 11 2 = ⟨10, 10, 12, 11⟩)) :=
  ⟨by decide, by decide, by norm_num,
   ⟨by norm_num [expandOnly, pyInt], by norm_num [expandOnly, pyInt],
    by norm_num [expandOnly, pyInt], by norm_num [expandOnly, pyInt]⟩,
   expand_aspect_idempotent_unclamped 10 10 12 11 2 100 100
     (by decide) (by decide) (by norm_num)
     (by norm_num [expandOnly, pyInt]) (by norm_num [expandOnly, pyInt])
     (by norm_num [expandOnly, pyInt]) (by norm_num [expandOnly, pyInt])⟩

/-- Claim C4 counterexample: box (10,0)-(14,10), ratio 2, bounds 16 x 10,
pad 0.  The first application clamps the right side at 16 and returns
(2,0)-(16,10); re-applying with the same arguments moves the left side to
0, so the output is not a fixed point. -/
theorem expand_aspect_not_idempotent_after_clamp :
    expand_aspect 10 0 14 10 2 16 10 0 = ⟨2, 0, 16, 10⟩ ∧
    expand_aspect 2 0 16 10 2 16 10 0 = ⟨0, 0, 16, 10⟩ ∧
    (⟨0, 0, 16, 10⟩ : Box) ≠ ⟨2, 0, 16, 10⟩ := by
  refine ⟨?_, ?_, by decide⟩
  · norm_num [expand_aspect, expandOnly, padBox, clampBox, pyInt, pyMax, pyMin] <;> decide
  · norm_num [expand_aspect, expandOnly, padBox, clampBox, pyInt, pyMax, pyMin] <;> decide

/-- Claim C3, amended with `0 ≤ pad`: `center_square` returns a box of
equal horizontal and vertical extent `min(w,h) - 2*pad`, contained in
`[0,w] × [0,h]`. -/
theorem center_square_square_and_contained (w h pad : Int)
    (hpad : 0 ≤ pad) (hside : 0 < pyMin w h - 2 * pad) :
    (center_square w h pad).right - (center_square w h pad).left = pyMin w h - 2 * pad ∧
    (center_square w h pad).bottom - (center_square w h pad).top = pyMin w h - 2 * pad ∧
    0 ≤ (center_square w h pad).left ∧ 0 ≤ (center_square w h pad).top ∧
    (center_square w h pad).right ≤ w ∧ (center_square w h pad).bottom ≤ h := by
  have hmw : pyMin w h ≤ w := by unfold pyMin; split <;> omega
  have hmh : pyMin w h ≤ h := by unfold pyMin; split <;> omega
  have h1 := fdiv_two_le (w - (pyMin w h - 2 * pad))
  have h2 := fdiv_two_le (h - (pyMin w h - 2 * pad))
  have h3 : 0 ≤ (w - (pyMin w h - 2 * pad)).fdiv 2 := Int.fdiv_nonneg (by omega) (by norm_num)
  have h4 : 0 ≤ (h - (pyMin w h - 2 * pad)).fdiv 2 := Int.fdiv_nonneg (by omega) (by norm_num)
  simp only [center_square]
  refine ⟨by ring, by ring, h3, h4, by omega, by omega⟩

/-- Claim C3 witness at the spec scenario `w=1000, h=800, pad=40`. -/
theorem center_square_square_and_contained_witness :
    0 ≤ (40 : Int) ∧ 0 < pyMin 1000 800 - 2 * 40 ∧
    ((center_square 1000 800 40).right - (center_square 1000 800 40).left = pyMin 1000 800 - 2 * 40 ∧
     (center_square 1000 800 40).bottom - (center_square 1000 800 40).top = pyMin 1000 800 - 2 * 40 ∧
     0 ≤ (center_square 1000 800 40).left ∧ 0 ≤ (center_square 1000 800 40).top ∧
     (center_square 1000 800 40).right ≤ 1000 ∧ (center_square 1000 800 40).bottom ≤ 800) :=
  ⟨by decide, by decide, center_square_square_and_contained 1000 800 40 (by decide) (by decide)⟩

/-- Claim C3 counterexample: with `pad = -10` (an `int` the CLI accepts)
the side precondition `min(w,h) - 2*pad > 0` holds, yet the returned box
leaves `[0,w] × [0,h]`. -/
theorem center_square_negative_pad_escapes_bounds :
    0 < pyMin 10 10 - 2 * (-10) ∧
    center_square 10 10 (-10) = ⟨-10, -10, 20, 20⟩ ∧
    ¬ 0 ≤ (center_square 10 10 (-10)).left := by decide

/-- Claim C5: every row uses the same height `(ch - g*(n-1)) // n`, whose
accumulated total misses the canvas height by at most `n - 1` pixels, and
the analogous width bound holds per row. -/
theorem compose_partition_slack_bounds (rows : List Int) (cw ch gutter : Int)
    (hne : rows ≠ []) (hch : 0 < ch - gutter * ((rows.length : Int) - 1)) :
    (∀ rh0 ∈ rowHeights rows ch gutter, rh0 = rowH ch gutter rows.length) ∧
    (0 ≤ ch - (gutter * ((rows.length : Int) - 1) + (rows.length : Int) * rowH ch gutter rows.length) ∧
      ch - (gutter * ((rows.length : Int) - 1) + (rows.length : Int) * rowH ch gutter rows.length) ≤
        (rows.length : Int) - 1) ∧
    (∀ rc ∈ rows, 0 < rc →
      0 ≤ cw - (gutter * (rc - 1) + rc * cellW cw gutter rc) ∧
      cw - (gutter * (rc - 1) + rc * cellW cw gutter rc) ≤ rc - 1) := by
  have hlen : 0 < (rows.length : Int) := by exact_mod_cast List.length_pos.mpr hne
  refine ⟨?_, ?_, ?_⟩
  · intro rh0 hmem
    simp only [rowHeights, List.mem_map] at hmem
    obtain ⟨_, _, hval⟩ := hmem
    exact hval.symm
  · have hs := fdiv_slack (ch - gutter * ((rows.length : Int) - 1)) (rows.length : Int) hlen
    simp only [rowH]
    constructor <;> linarith [hs.1, hs.2]
  · intro rc _ hrc
    have hs := fdiv_slack (cw - gutter * (rc - 1)) rc hrc
    simp only [cellW]
    constructor <;> linarith [hs.1, hs.2]

/-- Claim C5 witness at the spec scenario `rows=[2,2]`, canvas 800, gutter 10. -/
theorem compose_partition_slack_bounds_witness :
    ([2, 2] : List Int) ≠ [] ∧
    0 < (800 : Int) - 10 * ((([2, 2] : List Int).length : Int) - 1) ∧
    ((∀ rh0 ∈ rowHeights [2, 2] 800 10, rh0 = rowH 800 10 ([2, 2] : List Int).length) ∧
     (0 ≤ (800 : Int) - (10 * ((([2, 2] : List Int).length : Int) - 1) +
          (([2, 2] : List Int).length : Int) * rowH 800 10 ([2, 2] : List Int).length) ∧
       (800 : Int) - (10 * ((([2, 2] : List Int).length : Int) - 1) +
          (([2, 2] : List Int).length : Int) * rowH 800 10 ([2, 2] : List Int).length) ≤
         (([2, 2] : List Int).length : Int) - 1) ∧
     (∀ rc ∈ ([2, 2] : List Int), 0 < rc →
       0 ≤ (800 : Int) - (10 * (rc - 1) + rc * cellW 800 10 rc) ∧
       (800 : Int) - (10 * (rc - 1) + rc * cellW 800 10 rc) ≤ rc - 1)) :=
  ⟨by decide, by decide, compose_partition_slack_bounds [2, 2] 800 800 10 (by decide) (by decide)⟩

/-- Claim C6: on a square 800x800 canvas with gutter 10 and pattern
`[2,2]`, row height and cell width are both 395, and the four images —
taken in sorted (lexicographic) file order — are pasted at
(0,0), (405,0), (0,405), (405,405). -/
theorem compose_four_square_scenario :
    rowH 800 10 2 = 395 ∧ cellW 800 10 2 = 395 ∧
    composeImgs ["c.jpg", "a.jpg", "d.jpg", "b.jpg"] = ["a.jpg", "b.jpg", "c.jpg", "d.jpg"] ∧
    composePlacements ["a.jpg", "b.jpg", "c.jpg", "d.jpg"] [2, 2] 800 800 10 =
      [("a.jpg", (0, 0)), ("b.jpg", (405, 0)), ("c.jpg", (0, 405)), ("d.jpg", (405, 405))] := by
  decide

/-- Claim C10: composition collects exactly the files matching the
case-sensitive `*.jpg` glob, so `.jpeg`, `.png` and `.JPG` children are
excluded even though the dispatcher's case-insensitive extension test
accepts them. -/
theorem compose_glob_case_sensitive_filter :
    (∀ (files : List String) (name : String),
        name ∈ composeImgs files → composeSelects name = true) ∧
    composeSelects "a.jpeg" = false ∧ composeSelects "b.png" = false ∧
    composeSelects "c.JPG" = false ∧ composeSelects "d.jpg" = true ∧
    pyIsImage "a.jpeg" = true ∧ pyIsImage "b.png" = true ∧
    pyIsImage "c.JPG" = true ∧ pyIsImage "d.jpg" = true ∧
    composeImgs ["a.jpeg", "b.png", "c.JPG", "d.jpg"] = ["d.jpg"] := by
  refine ⟨?_, by decide, by decide, by decide, by decide, by decide, by decide,
    by decide, by decide, by decide⟩
  intro files name hmem
  simp only [composeImgs] at hmem
  have hperm := List.perm_insertionSort
    (fun a b : String => lexLe a.toList b.toList = true)
    (files.filter fun f => composeSelects f)
  have h1 : name ∈ files.filter fun f => composeSelects f := hperm.mem_iff.mp hmem
  simpa using (List.mem_filter.mp h1).2

/-- Claim C10 witness: a lowercase `.jpg` child that composition keeps. -/
theorem compose_glob_case_sensitive_filter_witness :
    composeSelects "x.jpg" = true :=
  compose_glob_case_sensitive_filter.1 ["x.jpg"] "x.jpg" (by decide)

/-- Claim C7 (code evaluation): with only pattern "4" configured, a
4-image folder alone composes fine, the 3-image folder raises `KeyError`
and writes nothing — and because the raise is uncaught, running both
folders stops at the first one, so the 4-image folder is never composed:
the batch does not continue.  A pattern consuming more images than the
folder holds raises `IndexError` the same way. -/
theorem compose_missing_pattern_aborts_run :
    run_compose exampleComposeCfg folderFour =
      ([⟨"tag800", "four_tag800_800x800.jpg", 95⟩], none) ∧
    run_compose exampleComposeCfg folderThree = ([], some "KeyError: 3") ∧
    process exampleArgs exampleComposeCfg exampleDetect
        [.dir folderThree, .dir folderFour] = ([], some "KeyError: 3") ∧
    run_compose exampleShortfallCfg folderThree =
      ([], some "IndexError: list index out of range") := by
  decide

/-- Claim C8 counterexample: of three batch files only the second is
unreadable, yet the (openable) third file gets no artifact: the loop dies
at the second file instead of continuing. -/
theorem run_batch_unreadable_aborts_rest :
    run_batch exampleArgs exampleBatchCfg exampleDetect
        [⟨"a.jpg", true, 100, 100⟩, ⟨"b.jpg", false, 100, 100⟩,
          ⟨"c.jpg", true, 100, 100⟩] =
      ([⟨"thumb", "a_thumb100x100.jpg", 40⟩],
        some "cannot identify image file b.jpg") ∧
    (⟨"thumb", "c_thumb100x100.jpg", 40⟩ : Artifact) ∉
      (run_batch exampleArgs exampleBatchCfg exampleDetect
        [⟨"a.jpg", true, 100, 100⟩, ⟨"b.jpg", false, 100, 100⟩,
          ⟨"c.jpg", true, 100, 100⟩]).1 := by
  decide

/-- A prefix of openable files is consumed into the accumulator. -/
theorem runBatchAux_openable_front (args : Args) (cfg : Cfg)
    (detect : ImgFile → Option Box) :
    ∀ (pre rest : List ImgFile) (acc : List Artifact),
      (∀ f ∈ pre, f.openable = true) →
      runBatchAux args cfg detect (pre ++ rest) acc =
        runBatchAux args cfg detect rest
          (acc ++ (pre.map (batchArtifactsFor args cfg detect)).flatten) := by
  intro pre
  induction pre with
  | nil =>
      intro rest acc _
      simp
  | cons f fs ih =>
      intro rest acc hpre
      have hf : f.openable = true := hpre f (by simp)
      simp only [List.cons_append, runBatchAux, hf, if_true, List.append_eq]
      rw [ih rest _ (fun g hg => hpre g (by simp [hg]))]
      simp [List.append_assoc]

/-- Claim C8, amended: the first unreadable file raises out of the loop:
the batch keeps the artifacts of the files before it, reports the error,
and produces nothing for the unreadable file nor for any file after it. -/
theorem run_batch_stops_at_first_unreadable (args : Args) (cfg : Cfg)
    (detect : ImgFile → Option Box) (pre : List ImgFile) (src : ImgFile)
    (post : List ImgFile)
    (hpre : ∀ f ∈ pre, f.openable = true) (hsrc : src.openable = false) :
    run_batch args cfg detect (pre ++ src :: post) =
      ((pre.map (batchArtifactsFor args cfg detect)).flatten,
        some ("cannot identify image file " ++ src.name)) := by
  simp only [run_batch]
  rw [runBatchAux_openable_front args cfg detect pre (src :: post) [] hpre]
  simp [runBatchAux, hsrc]

/-- Claim C8 witness: openable a.jpg, unreadable b.jpg, openable c.jpg. -/
theorem run_batch_stops_at_first_unreadable_witness :
    (∀ f ∈ [(⟨"a.jpg", true, 100, 100⟩ : ImgFile)], f.openable = true) ∧
    (⟨"b.jpg", false, 100, 100⟩ : ImgFile).openable = false ∧
    run_batch exampleArgs exampleBatchCfg exampleDetect
        ([⟨"a.jpg", true, 100, 100⟩] ++ ⟨"b.jpg", false, 100, 100⟩ ::
          [⟨"c.jpg", true, 100, 100⟩]) =
      (([(⟨"a.jpg", true, 100, 100⟩ : ImgFile)].map
          (batchArtifactsFor exampleArgs exampleBatchCfg exampleDetect)).flatten,
        some ("cannot identify image file " ++
          (⟨"b.jpg", false, 100, 100⟩ : ImgFile).name)) :=
  ⟨by decide, by decide,
    run_batch_stops_at_first_unreadable exampleArgs exampleBatchCfg exampleDetect
      [⟨"a.jpg", true, 100, 100⟩] ⟨"b.jpg", false, 100, 100⟩
      [⟨"c.jpg", true, 100, 100⟩] (by decide) (by decide)⟩

/-- Every artifact of one opened image carries `quality = args.pad`. -/
theorem batchArtifactsFor_quality (args : Args) (cfg : Cfg)
    (detect : ImgFile → Option Box) (src : ImgFile) :
    ∀ a ∈ batchArtifactsFor args cfg detect src, a.quality = args.pad := by
  intro a ha
  simp only [batchArtifactsFor, List.mem_map] at ha
  obtain ⟨prof, _, hval⟩ := ha
  rw [← hval]

/-- The batch loop preserves the quality invariant. -/
theorem runBatchAux_quality (args : Args) (cfg : Cfg)
    (detect : ImgFile → Option Box) :
    ∀ (files : List ImgFile) (acc : List Artifact),
      (∀ a ∈ acc, a.quality = args.pad) →
      ∀ a ∈ (runBatchAux args cfg detect files acc).1, a.quality = args.pad := by
  intro files
  induction files with
  | nil =>
      intro acc hacc
      simpa [runBatchAux] using hacc
  | cons f fs ih =>
      intro acc hacc a ha
      by_cases hop : f.openable = true
      · rw [runBatchAux, if_pos hop] at ha
        refine ih _ ?_ a ha
        intro x hx
        rcases List.mem_append.mp hx with h | h
        · exact hacc x h
        · exact batchArtifactsFor_quality args cfg detect f x h
      · rw [runBatchAux, if_neg hop] at ha
        exact hacc a ha

/-- A composite the profile loop accepts was saved with quality 95. -/
theorem composeProfile_quality (cfg : Cfg) (folder : Folder)
    (imgs : List String) (prof : Profile) (a : Artifact)
    (h : composeProfile cfg folder imgs prof = .ok a) : a.quality = 95 := by
  simp only [composeProfile] at h
  split at h
  · exact absurd h (by simp)
  · split at h
    · exact absurd h (by simp)
    · simp only [Except.ok.injEq] at h
      rw [← h]

/-- The compose profile loop preserves the quality invariant. -/
theorem composeProfiles_quality (cfg : Cfg) (folder : Folder)
    (imgs : List String) :
    ∀ (profs : List Profile) (acc : List Artifact),
      (∀ a ∈ acc, a.quality = 95) →
      ∀ a ∈ (composeProfiles cfg folder imgs profs acc).1, a.quality = 95 := by
  intro profs
  induction profs with
  | nil =>
      intro acc hacc
      simpa [composeProfiles] using hacc
  | cons p ps ih =>
      intro acc hacc a ha
      rcases hcp : composeProfile cfg folder imgs p with e | art
      · rw [composeProfiles, hcp] at ha
        exact hacc a ha
      · rw [composeProfiles, hcp] at ha
        refine ih _ ?_ a ha
        intro x hx
        rcases List.mem_append.mp hx with h | h
        · exact hacc x h
        · rw [List.mem_singleton.mp h]
          exact composeProfile_quality cfg folder imgs p art hcp

/-- Claim C9: every single-image artifact is saved with the encoder
quality set to `args.pad` (the global `--pad`, default 40) — not a fixed
quality and not the profile pad — while every compose-mode composite is
saved with quality 95. -/
theorem save_quality_args_pad_and_95 (args : Args) (cfg : Cfg)
    (detect : ImgFile → Option Box) (files : List ImgFile) (folder : Folder) :
    (∀ a ∈ (run_batch args cfg detect files).1, a.quality = args.pad) ∧
    (∀ a ∈ (run_compose cfg folder).1, a.quality = 95) := by
  constructor
  · exact runBatchAux_quality args cfg detect files [] (by simp)
  · intro a ha
    simp only [run_compose] at ha
    split at ha
    · simp at ha
    · exact composeProfiles_quality cfg folder _ _ [] (by simp) a ha

/-- Claim C9 witness: the single 100x100 artifact of a.jpg carries
quality 40 (= `--pad`), the composite of the four-image folder quality 95. -/
theorem save_quality_args_pad_and_95_witness :
    (⟨"thumb", "a_thumb100x100.jpg", 40⟩ : Artifact).quality = exampleArgs.pad ∧
    (⟨"tag800", "four_tag800_800x800.jpg", 95⟩ : Artifact).quality = 95 :=
  ⟨(save_quality_args_pad_and_95 exampleArgs exampleBatchCfg exampleDetect
      [⟨"a.jpg", true, 100, 100⟩] folderFour).1 _ (by decide),
   (save_quality_args_pad_and_95 exampleArgs exampleComposeCfg exampleDetect
      [] folderFour).2 _ (by decide)⟩

end BatchResize
